import Mathlib

/-!
Verification of the ReAct agent orchestrator (src/react-agent/graph.py):
a shallow embedding of the message data model, the routing function
`route_model_output`, the sensitive-keyword scan `contains_sensitive_info`,
the budget-exhaustion policy of `call_model`, the `human_review` node, the
in-memory checkpoint dictionary with its `"ckpt_<n>"` identifiers, the
state (de)serialization used for checkpoints, and the time-travel runner
loop `run_agent_with_time_travel`.
-/

namespace ReactAgent

/-- Message roles of the transcript (system / user / assistant / tool).
An assistant message corresponds to a Python AIMessage, so the source's
isinstance check on AIMessage is the test role = assistant here. -/
inductive Role where
  | system
  | user
  | assistant
  | tool
deriving DecidableEq

/-- A pending tool-call request carried by an assistant message:
a name and its arguments. -/
structure ToolCall where
  name : String
  arguments : String
deriving DecidableEq

/-- A transcript message: role, optional text content (Python content may be
None, modelled as Option), the list of pending tool-call requests (empty
when absent), and an optional identifier. -/
structure Message where
  role : Role
  content : Option String
  tool_calls : List ToolCall
  id : Option String
deriving DecidableEq

/-- The conversation State: the ordered message transcript, the step-budget
flag is_last_step, and the extra key/value fields settable via resume
modifications. -/
structure State where
  messages : List Message
  is_last_step : Bool
  extra : List (String × String)
deriving DecidableEq

/-- Lowercasing of a string done character by character; models the Python
content.lower() call in contains_sensitive_info. -/
def lowerChars (s : String) : List Char :=
  s.toList.map Char.toLower

/-- The fixed sensitive-keyword list of contains_sensitive_info. -/
def sensitive_keywords : List String :=
  ["suicide", "kill myself", "password", "credentials"]

/-- Python substring containment (keyword in content), on the character
lists of the two strings. -/
def substrB (needle : String) (haystack : List Char) : Bool :=
  decide (needle.toList <:+: haystack)

/-- Embedding of contains_sensitive_info: lowercase the content (None is
read as the empty string, as in Python content or "") and test each fixed
keyword for substring containment. -/
def contains_sensitive_info (message : Message) : Bool :=
  let content := lowerChars (message.content.getD "")
  sensitive_keywords.any (fun keyword => substrB keyword content)

/-- Error kinds of the orchestrator. TypeKind is the ValueError raised by
the router on a non-assistant last message; NotFoundKind is the ValueError
raised on resume with an unknown checkpoint id; IndexKind stands for the
IndexError of indexing messages[-1] on an empty transcript; DecodeKind
stands for a failure to decode a stored snapshot. -/
inductive ErrKind where
  | TypeKind
  | NotFoundKind
  | IndexKind
  | DecodeKind
deriving DecidableEq

/-- Embedding of route_model_output: read the last message; raise TypeKind
unless it is an assistant message; route to "human_review" on a sensitive
match, else to "tools" when tool calls are pending, else to "__end__".
It is a pure function of the State (no side effects, by its type). -/
def route_model_output (state : State) : Except ErrKind String :=
  match state.messages.getLast? with
  | none => Except.error ErrKind.IndexKind
  | some last_message =>
    if last_message.role ≠ Role.assistant then
      Except.error ErrKind.TypeKind
    else if contains_sensitive_info last_message then
      Except.ok "human_review"
    else if last_message.tool_calls ≠ [] then
      Except.ok "tools"
    else
      Except.ok "__end__"

/-- The fixed fallback text substituted by call_model when the step budget
is exhausted and the model still requests tool calls. -/
def fallback_content : String :=
  "Sorry, I could not find an answer to your question in the specified number of steps."

/-- Embedding of the call_model node's output, given the assistant response
produced by the external model collaborator: on the last allowed step with
pending tool calls, a single fallback assistant message carrying the
response's identifier is produced instead of the response; otherwise the
response itself. The returned list is the "messages" value of the node's
output dictionary. -/
def call_model (state : State) (response : Message) : List Message :=
  if state.is_last_step ∧ response.tool_calls ≠ [] then
    [{ role := Role.assistant, content := some fallback_content,
       tool_calls := [], id := response.id }]
  else
    [response]

/-- Embedding of the human_review node: re-emit the last message unchanged.
The none case is the IndexError of messages[-1] on an empty transcript. -/
def human_review (state : State) : Option (List Message) :=
  match state.messages.getLast? with
  | none => none
  | some last_message => some [last_message]

/-- The runner's merge of a node output into the State
(state.messages.extend(output["messages"])). -/
def merge_messages (state : State) (output : List Message) : State :=
  { state with messages := state.messages ++ output }

/-- Python dict lookup (d.get(k)) over an insertion-ordered association
list. -/
def dictGet {V : Type} (d : List (String × V)) (k : String) : Option V :=
  match d.find? (fun p => p.1 == k) with
  | none => none
  | some p => some p.2

/-- Python dict assignment (d[k] = v) over an insertion-ordered association
list: overwrite in place when the key is present, else append. -/
def dictSet {V : Type} (d : List (String × V)) (k : String) (v : V) :
    List (String × V) :=
  if d.any (fun p => p.1 == k) then
    d.map (fun p => if p.1 == k then (k, v) else p)
  else
    d ++ [(k, v)]

/-- Modelled from the spec: the structured, self-describing snapshot values
produced by serialization. The repository's State.to_dict / State.from_dict
and the JSON text layer live outside src, so the snapshot is modelled as a
JSON-like structured value (null, booleans, strings, arrays, objects),
which the spec admits: any format preserving full round-trip fidelity. -/
inductive Jx where
  | null
  | bool (b : Bool)
  | str (s : String)
  | arr (xs : List Jx)
  | obj (fields : List (String × Jx))

/-- Encoding of a role as its dictionary string. -/
def Role.to_str : Role → String
  | Role.system => "system"
  | Role.user => "user"
  | Role.assistant => "assistant"
  | Role.tool => "tool"

/-- Decoding of a role from its dictionary string. -/
def Role.from_str (s : String) : Option Role :=
  if s = "system" then some Role.system
  else if s = "user" then some Role.user
  else if s = "assistant" then some Role.assistant
  else if s = "tool" then some Role.tool
  else none

/-- Encoding of an optional string (null for None). -/
def jxOfOptStr : Option String → Jx
  | none => Jx.null
  | some s => Jx.str s

/-- Decoding of an optional string. -/
def jxToOptStr : Jx → Option (Option String)
  | Jx.null => some none
  | Jx.str s => some (some s)
  | _ => none

/-- Modelled from the spec: dictionary encoding of one tool-call request
(name and arguments). -/
def ToolCall.to_dict (tc : ToolCall) : Jx :=
  Jx.obj [("name", Jx.str tc.name), ("arguments", Jx.str tc.arguments)]

/-- Modelled from the spec: decoding of one tool-call request. -/
def ToolCall.from_dict : Jx → Option ToolCall
  | Jx.obj [("name", Jx.str n), ("arguments", Jx.str a)] =>
    some { name := n, arguments := a }
  | _ => none

/-- Decoding of a list of snapshot values, failing if any element fails. -/
def decodeList {α : Type} (g : Jx → Option α) : List Jx → Option (List α)
  | [] => some []
  | x :: xs =>
    match g x, decodeList g xs with
    | some a, some rest => some (a :: rest)
    | _, _ => none

/-- Modelled from the spec: dictionary encoding of one message, preserving
role, content, tool-call requests and identifier. -/
def Message.to_dict (m : Message) : Jx :=
  Jx.obj [("role", Jx.str m.role.to_str),
          ("content", jxOfOptStr m.content),
          ("tool_calls", Jx.arr (m.tool_calls.map ToolCall.to_dict)),
          ("id", jxOfOptStr m.id)]

/-- Modelled from the spec: decoding of one message. -/
def Message.from_dict : Jx → Option Message
  | Jx.obj [("role", Jx.str r), ("content", c), ("tool_calls", Jx.arr tcs), ("id", i)] =>
    match Role.from_str r, jxToOptStr c, decodeList ToolCall.from_dict tcs, jxToOptStr i with
    | some role, some content, some tool_calls, some id =>
      some { role := role, content := content, tool_calls := tool_calls, id := id }
    | _, _, _, _ => none
  | _ => none

/-- Decoding of the extra string fields of a State. -/
def decodePairs : List (String × Jx) → Option (List (String × String))
  | [] => some []
  | (k, Jx.str v) :: rest =>
    match decodePairs rest with
    | some tail => some ((k, v) :: tail)
    | none => none
  | _ => none

/-- Modelled from the spec: State.to_dict, the dictionary encoding of a
State (message list, step-budget flag, extra fields), referenced but not
defined in src. -/
def State.to_dict (s : State) : Jx :=
  Jx.obj [("messages", Jx.arr (s.messages.map Message.to_dict)),
          ("is_last_step", Jx.bool s.is_last_step),
          ("extra", Jx.obj (s.extra.map (fun p => (p.1, Jx.str p.2))))]

/-- Modelled from the spec: State.from_dict, the decoder of a State
snapshot, referenced but not defined in src. -/
def State.from_dict : Jx → Option State
  | Jx.obj [("messages", Jx.arr ms), ("is_last_step", Jx.bool b), ("extra", Jx.obj ex)] =>
    match decodeList Message.from_dict ms, decodePairs ex with
    | some messages, some extra =>
      some { messages := messages, is_last_step := b, extra := extra }
    | _, _ => none
  | _ => none

/-- Embedding of serialize_state: json.dumps(state.to_dict()), with the
snapshot kept as the structured value level of the encoding. -/
def serialize_state (state : State) : Jx :=
  state.to_dict

/-- Embedding of deserialize_state: State.from_dict(json.loads(s)). -/
def deserialize_state (serialized : Jx) : Option State :=
  State.from_dict serialized

/-- The type of the global CHECKPOINTS dictionary: an insertion-ordered map
from checkpoint identifiers to serialized snapshots. -/
abbrev Store : Type := List (String × Jx)

/-- The checkpoint identifier string "ckpt_<n>" built from the store's
current size, as in the runner's f-string. -/
def checkpointId (n : Nat) : String :=
  "ckpt_" ++ Nat.repr n

/-- Embedding of the runner's save step: assign the identifier
ckpt_<len(CHECKPOINTS)> and store the serialized state under it, returning
the grown store and the identifier. -/
def save_checkpoint (d : Store) (state : State) : Store × String :=
  let checkpoint_id := checkpointId (List.length d)
  (dictSet d checkpoint_id (serialize_state state), checkpoint_id)

/-- Embedding of list_checkpoints: all stored identifiers in insertion
order. -/
def list_checkpoints (d : Store) : List String :=
  d.map (fun p => p.1)

/-- A sequence of save operations applied to a store, in order; the shape
of every store interaction the runner performs. -/
def foldSaves (states : List State) (d : Store) : Store :=
  states.foldl (fun acc s => (save_checkpoint acc s).1) d

/-- The decimal value read back from a list of digit characters; a left
inverse of the decimal printing used by checkpoint identifiers. -/
def digitsVal (l : List Char) : Nat :=
  l.foldl (fun a c => 10 * a + (c.toNat - 48)) 0

/-- A resume modification: one setattr(state, key, value) on a loaded
State, either a known field or an extra key. -/
inductive Modification where
  | set_messages (value : List Message)
  | set_is_last_step (value : Bool)
  | set_field (key : String) (value : String)

/-- Application of one resume modification to a State. -/
def apply_modification (state : State) : Modification → State
  | Modification.set_messages v => { state with messages := v }
  | Modification.set_is_last_step v => { state with is_last_step := v }
  | Modification.set_field k v => { state with extra := dictSet state.extra k v }

/-- Application of a list of resume modifications, in order. -/
def apply_modifications (state : State) (mods : List Modification) : State :=
  mods.foldl apply_modification state

/-- The three concrete nodes of the graph (the terminal pseudo-node
"__end__" is represented by the absence of a next node). -/
inductive Node where
  | call_model
  | tools
  | human_review
deriving DecidableEq

/-- One observable event of a run: a checkpoint save (with its identifier)
or the execution of one node step. -/
inductive Event where
  | save (id : String)
  | step (node : Node)
deriving DecidableEq

/-- Boolean test for a save event. -/
def Event.isSave : Event → Bool
  | Event.save _ => true
  | Event.step _ => false

/-- Boolean test for a step event. -/
def Event.isStep : Event → Bool
  | Event.save _ => false
  | Event.step _ => true

/-- Outcome of a run: normal termination with the final State, the final
store, the event trace and the number of model-call invocations; a raised
error (with the store, trace and count at that point); or exhaustion of the
step fuel of the embedding. -/
inductive RunOutcome where
  | ok (state : State) (store : Store) (trace : List Event) (model_calls : Nat)
  | fail (e : ErrKind) (store : Store) (trace : List Event) (model_calls : Nat)
  | fuelOut (store : Store) (trace : List Event) (model_calls : Nat)

/-- Whether the outcome is normal termination. -/
def RunOutcome.isOk : RunOutcome → Bool
  | RunOutcome.ok _ _ _ _ => true
  | _ => false

/-- The event trace of an outcome. -/
def RunOutcome.trace : RunOutcome → List Event
  | RunOutcome.ok _ _ tr _ => tr
  | RunOutcome.fail _ _ tr _ => tr
  | RunOutcome.fuelOut _ tr _ => tr

/-- The model-call count of an outcome. -/
def RunOutcome.modelCalls : RunOutcome → Nat
  | RunOutcome.ok _ _ _ mc => mc
  | RunOutcome.fail _ _ _ mc => mc
  | RunOutcome.fuelOut _ _ mc => mc

/-- The content of the last message of the final State, for a normally
terminated run. -/
def RunOutcome.finalContent : RunOutcome → Option (Option String)
  | RunOutcome.ok st _ _ _ => st.messages.getLast?.map Message.content
  | _ => none

/-- Modelled from the spec: one transition of the Step Executor
(graph.execute is referenced but not defined in src; the spec fixes one
node transition per loop iteration). The external collaborators are the
model (transcript to assistant response) and the tool catalog (one call in,
one result message out). The call_model node applies the source's
budget-exhaustion policy to the collaborator's response; the tools node
produces one result per pending tool call of the last message; the
human_review node re-emits the last message. -/
def execute_step (model : List Message → Message) (toolFn : ToolCall → Message)
    (node : Node) (state : State) : Except ErrKind (List Message) :=
  match node with
  | Node.call_model => Except.ok (call_model state (model state.messages))
  | Node.tools =>
    match state.messages.getLast? with
    | none => Except.error ErrKind.IndexKind
    | some last_message => Except.ok (last_message.tool_calls.map toolFn)
  | Node.human_review =>
    match human_review state with
    | none => Except.error ErrKind.IndexKind
    | some output => Except.ok output

/-- Modelled from the spec: the edge out of the node just executed, on the
merged State. From call_model the Router chooses the conditional edge; from
tools the static edge returns to call_model; from human_review the static
edge reaches "__end__". A none next node means the terminal state. -/
def next_node (node : Node) (merged : State) : Except ErrKind (Option Node) :=
  match node with
  | Node.call_model =>
    match route_model_output merged with
    | Except.error e => Except.error e
    | Except.ok r =>
      Except.ok (if r = "tools" then some Node.tools
                 else if r = "human_review" then some Node.human_review
                 else none)
  | Node.tools => Except.ok (some Node.call_model)
  | Node.human_review => Except.ok none

/-- Prefixing of an outcome's trace with earlier events and addition of
earlier model calls. -/
def addEvents (evs : List Event) (k : Nat) : RunOutcome → RunOutcome
  | RunOutcome.ok st sto tr mc => RunOutcome.ok st sto (evs ++ tr) (k + mc)
  | RunOutcome.fail e sto tr mc => RunOutcome.fail e sto (evs ++ tr) (k + mc)
  | RunOutcome.fuelOut sto tr mc => RunOutcome.fuelOut sto (evs ++ tr) (k + mc)

/-- Modelled from the spec: the running phase of run_agent_with_time_travel.
Each iteration saves a checkpoint of the current State, executes exactly one
node, merges the output messages by appending, and stops when the graph is
terminal, after which one final checkpoint of the final State is saved. The
step budget is threaded by the runner: with budget b remaining, the
is_last_step flag seen by a call_model step is b at most 1, and b decreases
by one at each model call. fuel bounds the recursion of the embedding. -/
def run_loop (model : List Message → Message) (toolFn : ToolCall → Message) :
    Nat → Nat → Store → State → Node → RunOutcome
  | 0, _, store, _, _ => RunOutcome.fuelOut store [] 0
  | fuel + 1, budget, store, state, node =>
    let saved := save_checkpoint store state
    let mcount : Nat := if node = Node.call_model then 1 else 0
    let state1 :=
      if node = Node.call_model then { state with is_last_step := budget ≤ 1 } else state
    match execute_step model toolFn node state1 with
    | Except.error e => RunOutcome.fail e saved.1 [Event.save saved.2] mcount
    | Except.ok output =>
      let merged := merge_messages state1 output
      match next_node node merged with
      | Except.error e =>
        RunOutcome.fail e saved.1 [Event.save saved.2, Event.step node] mcount
      | Except.ok none =>
        let finalSaved := save_checkpoint saved.1 merged
        RunOutcome.ok merged finalSaved.1
          [Event.save saved.2, Event.step node, Event.save finalSaved.2] mcount
      | Except.ok (some nxt) =>
        let budget1 := if node = Node.call_model then budget - 1 else budget
        addEvents [Event.save saved.2, Event.step node] mcount
          (run_loop model toolFn fuel budget1 saved.1 merged nxt)

/-- The fresh State built from the initial input
(State(input=initial_input)). -/
def init_state (initial_input : List Message) : State :=
  { messages := initial_input, is_last_step := false, extra := [] }

/-- Embedding of run_agent_with_time_travel: with a resume checkpoint
identifier, look it up in the store and fail with NotFoundKind when absent,
else deserialize the snapshot and apply the modifications; without one,
start from the initial input. Then drive the loop from the call_model node
(the static edge from "__start__"). -/
def run_agent_with_time_travel (model : List Message → Message)
    (toolFn : ToolCall → Message) (fuel : Nat) (budget : Nat) (store : Store)
    (initial_input : List Message) (resume_checkpoint_id : Option String)
    (modifications : List Modification) : RunOutcome :=
  match resume_checkpoint_id with
  | some cid =>
    match dictGet store cid with
    | none => RunOutcome.fail ErrKind.NotFoundKind store [] 0
    | some snapshot =>
      match deserialize_state snapshot with
      | none => RunOutcome.fail ErrKind.DecodeKind store [] 0
      | some loaded =>
        run_loop model toolFn fuel budget store
          (apply_modifications loaded modifications) Node.call_model
  | none =>
    run_loop model toolFn fuel budget store (init_state initial_input) Node.call_model

/-- C1: for every state whose last message is an assistant message, the
Router's decision is a function of that last message alone and follows the
priority order sensitive match to human-review, else pending tool calls to
tool-execution, else terminate; it is a pure function (by its type it
returns only a label and cannot modify the State). -/
theorem router_priority (s : State) (m : Message)
    (hlast : s.messages.getLast? = some m) (hrole : m.role = Role.assistant) :
    route_model_output s =
      (if contains_sensitive_info m then Except.ok "human_review"
       else if m.tool_calls ≠ [] then Except.ok "tools"
       else Except.ok "__end__") := by
  unfold route_model_output
  rw [hlast]
  simp [hrole]

set_option maxRecDepth 40000 in
/-- Witness for C1 at the spec's own scenario: an assistant message with
content "my password is hunter2" and no tool calls routes to human-review. -/
theorem router_priority_witness :
    route_model_output
      { messages := [{ role := Role.user, content := some "hi", tool_calls := [], id := none },
                     { role := Role.assistant, content := some "my password is hunter2",
                       tool_calls := [], id := none }],
        is_last_step := false, extra := [] } = Except.ok "human_review" := by
  have h := router_priority
    { messages := [{ role := Role.user, content := some "hi", tool_calls := [], id := none },
                   { role := Role.assistant, content := some "my password is hunter2",
                     tool_calls := [], id := none }],
      is_last_step := false, extra := [] }
    { role := Role.assistant, content := some "my password is hunter2",
      tool_calls := [], id := none }
    rfl rfl
  rw [h, if_pos (by decide)]

/-- C2: the sensitive scan returns true exactly when the lowercased content
(None read as the empty string) contains one of the four fixed keywords as
a substring, and the all-uppercase content "PASSWORD" does match. -/
theorem contains_sensitive_info_spec :
    (∀ m : Message, contains_sensitive_info m = true ↔
      ∃ k ∈ sensitive_keywords,
        k.toList <:+: (m.content.getD "").toList.map Char.toLower) ∧
    contains_sensitive_info
      { role := Role.assistant, content := some "PASSWORD",
        tool_calls := [], id := none } = true := by
  constructor
  · intro m
    unfold contains_sensitive_info substrB lowerChars
    simp [List.any_eq_true, String.toList]
  · decide

/-- C5: on the last allowed step with a response still requesting tool
calls, call_model produces the single fallback assistant message carrying
the response's identifier; in every other case it produces exactly the
response. -/
theorem call_model_budget_policy (s : State) (response : Message) :
    (s.is_last_step = true → response.tool_calls ≠ [] →
      call_model s response =
        [{ role := Role.assistant, content := some fallback_content,
           tool_calls := [], id := response.id }]) ∧
    (s.is_last_step = false ∨ response.tool_calls = [] →
      call_model s response = [response]) := by
  constructor
  · intro h1 h2
    unfold call_model
    simp [h1, h2]
  · intro h
    unfold call_model
    rcases h with h | h
    · simp [h]
    · simp [h]

/-- Witness for C5: a last-step state with a tool-calling response yields
the fallback message with the response's identifier. -/
theorem call_model_budget_policy_witness :
    call_model { messages := [], is_last_step := true, extra := [] }
        { role := Role.assistant, content := some "let me search",
          tool_calls := [{ name := "search", arguments := "q" }], id := some "m1" } =
      [{ role := Role.assistant, content := some fallback_content,
         tool_calls := [], id := some "m1" }] :=
  (call_model_budget_policy _ _).1 rfl (List.cons_ne_nil _ _)

/-- C9: with a last message that is not assistant-authored the Router fails
with the TypeKind error, and it returns a route exactly when the last
message is assistant-authored. -/
theorem router_type_guard (s : State) (m : Message)
    (hlast : s.messages.getLast? = some m) :
    (m.role ≠ Role.assistant → route_model_output s = Except.error ErrKind.TypeKind) ∧
    ((∃ r, route_model_output s = Except.ok r) ↔ m.role = Role.assistant) := by
  unfold route_model_output
  rw [hlast]
  constructor
  · intro h
    simp [h]
  · constructor
    · rintro ⟨r, hr⟩
      by_contra hne
      simp [hne] at hr
    · intro h
      simp only [h]
      by_cases hs : contains_sensitive_info m
      · exact ⟨"human_review", by simp [hs]⟩
      · by_cases ht : m.tool_calls = []
        · exact ⟨"__end__", by simp [hs, ht]⟩
        · exact ⟨"tools", by simp [hs, ht]⟩

/-- Witness for C9: a tool-result last message makes the Router fail with
TypeKind. -/
theorem router_type_guard_witness :
    route_model_output
      { messages := [{ role := Role.tool, content := some "result",
                       tool_calls := [], id := some "t1" }],
        is_last_step := false, extra := [] } = Except.error ErrKind.TypeKind :=
  (router_type_guard
    { messages := [{ role := Role.tool, content := some "result",
                     tool_calls := [], id := some "t1" }],
      is_last_step := false, extra := [] }
    { role := Role.tool, content := some "result", tool_calls := [], id := some "t1" }
    rfl).1 (by decide)

/-- C10: on a non-empty transcript the human-review node's output is
exactly the one-element list holding the last message, and the Runner's
append merge leaves the transcript ending with two consecutive equal copies
of that message, with all earlier messages and the other State fields
unchanged. -/
theorem human_review_duplicates_last (s : State) (m : Message)
    (hlast : s.messages.getLast? = some m) :
    human_review s = some [m] ∧
    (merge_messages s [m]).messages = s.messages ++ [m] ∧
    (merge_messages s [m]).messages.getLast? = some m ∧
    (merge_messages s [m]).messages.dropLast = s.messages ∧
    (merge_messages s [m]).is_last_step = s.is_last_step ∧
    (merge_messages s [m]).extra = s.extra := by
  refine ⟨?_, rfl, ?_, ?_, rfl, rfl⟩
  · unfold human_review
    rw [hlast]
  · simp [merge_messages]
  · simp [merge_messages, List.dropLast_concat]

/-- Witness for C10: duplication of the last message on a concrete
two-message transcript. -/
theorem human_review_duplicates_last_witness :
    human_review
        { messages := [{ role := Role.user, content := some "hi",
                         tool_calls := [], id := none },
                       { role := Role.assistant, content := some "flagged",
                         tool_calls := [], id := none }],
          is_last_step := false, extra := [] } =
      some [{ role := Role.assistant, content := some "flagged",
              tool_calls := [], id := none }] :=
  (human_review_duplicates_last
    { messages := [{ role := Role.user, content := some "hi",
                     tool_calls := [], id := none },
                   { role := Role.assistant, content := some "flagged",
                     tool_calls := [], id := none }],
      is_last_step := false, extra := [] }
    { role := Role.assistant, content := some "flagged", tool_calls := [], id := none }
    rfl).1

/-- Helper: roles decode back from their dictionary strings. -/
theorem role_round (r : Role) : Role.from_str r.to_str = some r := by
  cases r <;> rfl

/-- Helper: optional strings decode back from their snapshot values. -/
theorem optstr_round (o : Option String) : jxToOptStr (jxOfOptStr o) = some o := by
  cases o <;> rfl

/-- Helper: tool calls decode back from their dictionary encodings. -/
theorem toolcall_round (tc : ToolCall) : ToolCall.from_dict tc.to_dict = some tc := by
  cases tc
  rfl

/-- Helper: element-wise decoding inverts element-wise encoding. -/
theorem decodeList_round {α : Type} (f : α → Jx) (g : Jx → Option α)
    (h : ∀ x, g (f x) = some x) (l : List α) :
    decodeList g (l.map f) = some l := by
  induction l with
  | nil => rfl
  | cons x xs ih => simp [decodeList, h, ih]

/-- Helper: messages decode back from their dictionary encodings. -/
theorem message_round (m : Message) : Message.from_dict m.to_dict = some m := by
  obtain ⟨role, content, tool_calls, id⟩ := m
  simp [Message.to_dict, Message.from_dict, role_round, optstr_round,
        decodeList_round ToolCall.to_dict ToolCall.from_dict toolcall_round]

/-- Helper: extra string fields decode back from their encodings. -/
theorem pairs_round (l : List (String × String)) :
    decodePairs (l.map (fun p => (p.1, Jx.str p.2))) = some l := by
  induction l with
  | nil => rfl
  | cons p rest ih => simp [decodePairs, ih]

/-- C3: deserializing the serialized snapshot of any State returns it
field for field: messages (role, content, tool calls, identifier), the
step-budget flag and the extra fields are preserved exactly. -/
theorem serialize_state_round_trip (s : State) :
    deserialize_state (serialize_state s) = some s := by
  obtain ⟨messages, is_last_step, extra⟩ := s
  simp [serialize_state, deserialize_state, State.to_dict, State.from_dict,
        decodeList_round Message.to_dict Message.from_dict message_round,
        pairs_round]

/-- Helper: reading one more digit multiplies the accumulated value by ten. -/
theorem digitsVal_append (l : List Char) (c : Char) :
    digitsVal (l ++ [c]) = 10 * digitsVal l + (c.toNat - 48) := by
  simp [digitsVal, List.foldl_append]

/-- Helper: the code point of a decimal digit character recovers the digit. -/
theorem digitChar_val (d : Nat) (h : d < 10) : (Nat.digitChar d).toNat - 48 = d := by
  interval_cases d <;> rfl

/-- Helper: the digit-printing loop only prepends to its accumulator. -/
theorem toDigitsCore_acc (fuel : Nat) : ∀ (n : Nat) (ds : List Char),
    Nat.toDigitsCore 10 fuel n ds = Nat.toDigitsCore 10 fuel n [] ++ ds := by
  induction fuel with
  | zero => intro n ds; simp [Nat.toDigitsCore]
  | succ fuel ih =>
    intro n ds
    simp only [Nat.toDigitsCore]
    by_cases h : n / 10 = 0
    · simp [h]
    · simp only [h, if_false]
      rw [ih (n / 10) (Nat.digitChar (n % 10) :: ds),
          ih (n / 10) [Nat.digitChar (n % 10)]]
      simp

/-- Helper: the decimal value of the printed digits of n is n. -/
theorem digitsVal_toDigitsCore (fuel : Nat) : ∀ n : Nat, n < fuel →
    digitsVal (Nat.toDigitsCore 10 fuel n []) = n := by
  induction fuel with
  | zero => intro n h; omega
  | succ fuel ih =>
    intro n h
    have hmod : n % 10 < 10 := Nat.mod_lt _ (by norm_num)
    simp only [Nat.toDigitsCore]
    by_cases h0 : n / 10 = 0
    · have hn : n < 10 := by
        rcases Nat.lt_or_ge n 10 with hlt | hge
        · exact hlt
        · have : n / 10 ≠ 0 := by
            have h1 : 1 ≤ n / 10 := (Nat.le_div_iff_mul_le (by norm_num)).mpr (by omega)
            omega
          exact absurd h0 this
      simp [h0, digitsVal, digitChar_val (n % 10) hmod]
      omega
    · have hdiv : n / 10 < fuel := by
        have h1 : 0 < n := by
          rcases Nat.eq_zero_or_pos n with rfl | hp
          · simp at h0
          · exact hp
        have := Nat.div_lt_self h1 (by norm_num : 1 < 10)
        omega
      rw [if_neg h0, toDigitsCore_acc, digitsVal_append, ih (n / 10) hdiv,
          digitChar_val (n % 10) hmod]
      exact Nat.div_add_mod n 10

/-- Helper: the decimal value reads back the decimal representation. -/
theorem digitsVal_repr (n : Nat) : digitsVal (Nat.repr n).toList = n := by
  simp only [Nat.repr, Nat.toDigits, List.toList_asString]
  exact digitsVal_toDigitsCore (n + 1) n (Nat.lt_succ_self n)

/-- Helper: decimal representations of distinct numbers differ. -/
theorem repr_injective : Function.Injective Nat.repr := by
  intro a b h
  have ha := digitsVal_repr a
  rw [h, digitsVal_repr b] at ha
  omega

/-- Helper: checkpoint identifiers of distinct insertion counts differ. -/
theorem checkpointId_injective : Function.Injective checkpointId := by
  intro a b h
  apply repr_injective
  unfold checkpointId at h
  have hd : ("ckpt_" ++ Nat.repr a).data = ("ckpt_" ++ Nat.repr b).data := by
    rw [h]
  rw [String.data_append, String.data_append] at hd
  have := List.append_cancel_left hd
  exact String.ext this

/-- Helper: on a store whose keys are exactly ckpt_0 .. ckpt_(n-1) in
order, a save appends a fresh entry keyed ckpt_n and never overwrites. -/
theorem save_on_canonical (d : Store) (s : State)
    (hd : list_checkpoints d = (List.range d.length).map checkpointId) :
    save_checkpoint d s =
      (d ++ [(checkpointId d.length, serialize_state s)], checkpointId d.length) := by
  unfold save_checkpoint dictSet
  have hany : d.any (fun p => p.1 == checkpointId d.length) = false := by
    rw [List.any_eq_false]
    intro p hp
    have hmem : p.1 ∈ list_checkpoints d := List.mem_map_of_mem (fun q => q.1) hp
    rw [hd] at hmem
    obtain ⟨i, hi, hci⟩ := List.mem_map.mp hmem
    have hilt : i < d.length := List.mem_range.mp hi
    simp only [beq_iff_eq]
    intro hEq
    rw [← hci] at hEq
    have := checkpointId_injective hEq
    omega
  simp [hany]

/-- Helper: a run of saves on a canonical store keeps the keys canonical. -/
theorem foldSaves_canonical (states : List State) : ∀ d : Store,
    list_checkpoints d = (List.range d.length).map checkpointId →
    list_checkpoints (foldSaves states d) =
      (List.range (d.length + states.length)).map checkpointId ∧
    (foldSaves states d).length = d.length + states.length := by
  induction states with
  | nil =>
    intro d hd
    exact ⟨by simpa [foldSaves] using hd, by simp [foldSaves]⟩
  | cons s rest ih =>
    intro d hd
    have hsave := save_on_canonical d s hd
    have hstep : (save_checkpoint d s).1 = d ++ [(checkpointId d.length, serialize_state s)] := by
      rw [hsave]
    have hlen1 : (d ++ [(checkpointId d.length, serialize_state s)]).length = d.length + 1 := by
      simp
    have hnew : list_checkpoints (d ++ [(checkpointId d.length, serialize_state s)]) =
        (List.range (d ++ [(checkpointId d.length, serialize_state s)]).length).map checkpointId := by
      rw [hlen1, List.range_succ]
      simp only [list_checkpoints] at hd ⊢
      simp [hd]
    have hrec := ih _ hnew
    rw [hlen1] at hrec
    have hfold : foldSaves (s :: rest) d =
        foldSaves rest (d ++ [(checkpointId d.length, serialize_state s)]) := by
      simp only [foldSaves, List.foldl_cons, hstep]
    have harith : d.length + 1 + rest.length = d.length + (s :: rest).length := by
      simp only [List.length_cons]
      omega
    rw [hfold, ← harith]
    exact hrec

/-- C4: starting from the empty store, k saves produce exactly the keys
ckpt_0 .. ckpt_(k-1) in insertion order (so listing has one identifier per
save and identifiers never repeat), and the next save on such a store
appends a fresh entry keyed ckpt_k, the insertion count at save time,
overwriting and evicting nothing; in particular after one checkpoint the
next save is keyed ckpt_1. -/
theorem checkpoint_ids_monotonic (states : List State) :
    list_checkpoints (foldSaves states []) = (List.range states.length).map checkpointId ∧
    (list_checkpoints (foldSaves states [])).Nodup ∧
    (foldSaves states []).length = states.length ∧
    ∀ s : State, save_checkpoint (foldSaves states []) s =
      (foldSaves states [] ++ [(checkpointId states.length, serialize_state s)],
       checkpointId states.length) := by
  have base : list_checkpoints ([] : Store) =
      (List.range ([] : Store).length).map checkpointId := by
    simp [list_checkpoints]
  have h := foldSaves_canonical states [] base
  simp only [List.length_nil, Nat.zero_add] at h
  refine ⟨h.1, ?_, h.2, ?_⟩
  · rw [h.1]
    exact List.Nodup.map checkpointId_injective (List.nodup_range states.length)
  · intro s
    have := save_on_canonical (foldSaves states []) s (by rw [h.1, h.2])
    rw [this, h.2]

/-- C8: calling the session entry point with a resume checkpoint
identifier absent from the store fails immediately with NotFoundKind: no
step is executed, no checkpoint is saved (empty trace, zero model calls)
and the store is returned unchanged. -/
theorem resume_unknown_checkpoint_fails (model : List Message → Message)
    (toolFn : ToolCall → Message) (fuel budget : Nat) (store : Store)
    (initial_input : List Message) (cid : String) (mods : List Modification)
    (h : dictGet store cid = none) :
    run_agent_with_time_travel model toolFn fuel budget store initial_input
        (some cid) mods =
      RunOutcome.fail ErrKind.NotFoundKind store [] 0 := by
  unfold run_agent_with_time_travel
  simp [h]

/-- Witness for C8: resuming from "ckpt_0" on the empty store fails with
NotFoundKind and leaves everything untouched. -/
theorem resume_unknown_checkpoint_fails_witness :
    run_agent_with_time_travel
        (fun _ => { role := Role.assistant, content := some "hello",
                    tool_calls := [], id := none })
        (fun _ => { role := Role.tool, content := some "result",
                    tool_calls := [], id := none })
        10 5 [] [] (some "ckpt_0") [] =
      RunOutcome.fail ErrKind.NotFoundKind [] [] 0 :=
  resume_unknown_checkpoint_fails
    (fun _ => { role := Role.assistant, content := some "hello",
                tool_calls := [], id := none })
    (fun _ => { role := Role.tool, content := some "result",
                tool_calls := [], id := none })
    10 5 [] [] "ckpt_0" [] rfl

/-- Helper: prefixing events does not change whether a run succeeded. -/
theorem addEvents_isOk (evs : List Event) (k : Nat) (r : RunOutcome) :
    (addEvents evs k r).isOk = r.isOk := by
  cases r <;> rfl

/-- Helper: prefixing events onto a normally terminated outcome. -/
theorem addEvents_ok (evs : List Event) (k : Nat) (st : State) (sto : Store)
    (tr : List Event) (mc : Nat) :
    addEvents evs k (RunOutcome.ok st sto tr mc) =
      RunOutcome.ok st sto (evs ++ tr) (k + mc) := rfl

/-- Helper: the trace of a prefixed outcome is the prefix plus the trace. -/
theorem addEvents_trace (evs : List Event) (k : Nat) (r : RunOutcome) :
    (addEvents evs k r).trace = evs ++ r.trace := by
  cases r <;> rfl

/-- Helper: the tool-execution iteration of the loop: save a checkpoint,
execute the tools node on the last message, merge the one-result-per-call
output, and continue at call_model over the static edge. -/
theorem run_loop_tools_step (model : List Message → Message)
    (toolFn : ToolCall → Message) (fuel budget : Nat) (store : Store)
    (state : State) (m : Message) (hlast : state.messages.getLast? = some m) :
    run_loop model toolFn (fuel + 1) budget store state Node.tools =
      addEvents [Event.save (save_checkpoint store state).2, Event.step Node.tools] 0
        (run_loop model toolFn fuel budget (save_checkpoint store state).1
          (merge_messages state (m.tool_calls.map toolFn)) Node.call_model) := by
  simp only [run_loop, execute_step, next_node]
  simp [hlast]

set_option maxRecDepth 40000 in
/-- Helper: the fallback message is never flagged by the sensitive scan,
whatever identifier it carries. -/
theorem fallback_not_sensitive (i : Option String) :
    contains_sensitive_info
      { role := Role.assistant, content := some fallback_content,
        tool_calls := [], id := i } = false := by
  show sensitive_keywords.any
    (fun keyword => substrB keyword (lowerChars ((some fallback_content).getD ""))) = false
  decide

/-- Helper: the model-call iteration of the loop when the budget is not
exhausted and the response is a benign assistant message requesting tool
calls: save a checkpoint, append the response, decrement the budget and
continue at the tools node chosen by the Router. -/
theorem run_loop_model_step (model : List Message → Message)
    (toolFn : ToolCall → Message) (fuel budget : Nat) (store : Store)
    (state : State) (hb : 2 ≤ budget)
    (hrole : (model state.messages).role = Role.assistant)
    (hsafe : contains_sensitive_info (model state.messages) = false)
    (htc : (model state.messages).tool_calls ≠ []) :
    run_loop model toolFn (fuel + 1) budget store state Node.call_model =
      addEvents [Event.save (save_checkpoint store state).2, Event.step Node.call_model] 1
        (run_loop model toolFn fuel (budget - 1) (save_checkpoint store state).1
          (merge_messages { state with is_last_step := false } [model state.messages])
          Node.tools) := by
  have hb1 : ¬ (budget ≤ 1) := by omega
  simp only [run_loop, execute_step, call_model, next_node, route_model_output]
  simp [hb1, hrole, hsafe, htc, merge_messages]

/-- Helper: the model-call iteration of the loop on the last allowed step
with a response still requesting tool calls: the fallback message is
appended instead, the Router sends it to terminate, and the final
checkpoint is saved. -/
theorem run_loop_model_last_step (model : List Message → Message)
    (toolFn : ToolCall → Message) (fuel budget : Nat) (store : Store)
    (state : State) (hb : budget ≤ 1)
    (htc : (model state.messages).tool_calls ≠ []) :
    run_loop model toolFn (fuel + 1) budget store state Node.call_model =
      RunOutcome.ok
        (merge_messages { state with is_last_step := true }
          [{ role := Role.assistant, content := some fallback_content,
             tool_calls := [], id := (model state.messages).id }])
        (save_checkpoint (save_checkpoint store state).1
          (merge_messages { state with is_last_step := true }
            [{ role := Role.assistant, content := some fallback_content,
               tool_calls := [], id := (model state.messages).id }])).1
        [Event.save (save_checkpoint store state).2, Event.step Node.call_model,
         Event.save (save_checkpoint (save_checkpoint store state).1
           (merge_messages { state with is_last_step := true }
             [{ role := Role.assistant, content := some fallback_content,
                tool_calls := [], id := (model state.messages).id }])).2] 1 := by
  simp only [run_loop, execute_step, call_model, next_node, route_model_output]
  simp [hb, htc, fallback_not_sensitive, merge_messages]

/-- C6 (amended): for a model collaborator that always returns an
assistant message requesting at least one tool call and never containing
sensitive content, a run with step budget N (N at least 1, with at least
2N loop fuel) terminates normally after exactly N model-call invocations
and the final message of the returned State is the assistant fallback
message with the fixed fallback text and no tool calls. -/
theorem budget_termination (model : List Message → Message)
    (toolFn : ToolCall → Message)
    (hrole : ∀ t, (model t).role = Role.assistant)
    (hsafe : ∀ t, contains_sensitive_info (model t) = false)
    (htc : ∀ t, (model t).tool_calls ≠ []) :
    ∀ (N fuel : Nat) (store : Store) (state : State), 1 ≤ N → 2 * N ≤ fuel →
    ∃ st sto tr, run_loop model toolFn fuel N store state Node.call_model =
        RunOutcome.ok st sto tr N ∧
      ∃ m, st.messages.getLast? = some m ∧ m.role = Role.assistant ∧
        m.content = some fallback_content ∧ m.tool_calls = [] := by
  intro N
  induction N with
  | zero => intro fuel store state h1 h2; omega
  | succ b ih =>
    intro fuel store state h1 h2
    by_cases hb0 : b = 0
    · subst hb0
      obtain ⟨f, rfl⟩ : ∃ f, fuel = f + 1 := ⟨fuel - 1, by omega⟩
      rw [run_loop_model_last_step model toolFn f 1 store state (by omega) (htc _)]
      refine ⟨_, _, _, rfl, ?_⟩
      exact ⟨{ role := Role.assistant, content := some fallback_content,
               tool_calls := [], id := (model state.messages).id },
             by simp [merge_messages], rfl, rfl, rfl⟩
    · obtain ⟨f, rfl⟩ : ∃ f, fuel = f + 1 + 1 := ⟨fuel - 2, by omega⟩
      rw [run_loop_model_step model toolFn (f + 1) (b + 1) store state (by omega)
          (hrole _) (hsafe _) (htc _)]
      rw [show b + 1 - 1 = b from rfl]
      rw [run_loop_tools_step model toolFn f b _ _ (model state.messages)
          (by simp [merge_messages])]
      obtain ⟨st, sto, tr, hrun, hm⟩ := ih f _ _ (by omega) (by omega)
      rw [hrun, addEvents_ok, addEvents_ok, Nat.zero_add, Nat.add_comm 1 b]
      exact ⟨st, sto, _, rfl, hm⟩

set_option maxRecDepth 40000 in
/-- Helper: the witness model's message is not flagged by the scan. -/
theorem searching_not_sensitive :
    contains_sensitive_info
      { role := Role.assistant, content := some "searching",
        tool_calls := [{ name := "search", arguments := "q" }], id := none } = false := by
  decide

/-- Helper: the witness model's message requests a tool call. -/
theorem searching_has_tool_calls :
    ({ role := Role.assistant, content := some "searching",
       tool_calls := [{ name := "search", arguments := "q" }],
       id := none } : Message).tool_calls ≠ [] := by
  decide

set_option maxRecDepth 100000 in
/-- Witness for C6: a benign always-tool-calling model with budget 2 and
fuel 4 terminates in exactly 2 model calls with the fallback message last. -/
theorem budget_termination_witness :
    ∃ st sto tr,
      run_loop
          (fun _ => { role := Role.assistant, content := some "searching",
                      tool_calls := [{ name := "search", arguments := "q" }], id := none })
          (fun _ => { role := Role.tool, content := some "result",
                      tool_calls := [], id := none })
          4 2 [] (init_state []) Node.call_model = RunOutcome.ok st sto tr 2 ∧
      ∃ m, st.messages.getLast? = some m ∧ m.role = Role.assistant ∧
        m.content = some fallback_content ∧ m.tool_calls = [] :=
  budget_termination
    (fun _ => { role := Role.assistant, content := some "searching",
                tool_calls := [{ name := "search", arguments := "q" }], id := none })
    (fun _ => { role := Role.tool, content := some "result",
                tool_calls := [], id := none })
    (fun _ => rfl)
    (fun _ => searching_not_sensitive)
    (fun _ => searching_has_tool_calls)
    2 4 [] (init_state []) (by decide) (by decide)

set_option maxRecDepth 200000 in
/-- Counterexample for C6 as stated: a model collaborator that always
requests a tool call but mentions a password terminates normally within
the budget of 2 via the human-review route, and the final message is the
flagged model message, not the fallback text. -/
theorem budget_termination_counterexample :
    (run_loop
        (fun _ => { role := Role.assistant, content := some "my password is hunter2",
                    tool_calls := [{ name := "search", arguments := "q" }], id := none })
        (fun _ => { role := Role.tool, content := some "result",
                    tool_calls := [], id := none })
        10 2 [] (init_state []) Node.call_model).isOk = true ∧
    (run_loop
        (fun _ => { role := Role.assistant, content := some "my password is hunter2",
                    tool_calls := [{ name := "search", arguments := "q" }], id := none })
        (fun _ => { role := Role.tool, content := some "result",
                    tool_calls := [], id := none })
        10 2 [] (init_state []) Node.call_model).modelCalls ≤ 2 ∧
    (run_loop
        (fun _ => { role := Role.assistant, content := some "my password is hunter2",
                    tool_calls := [{ name := "search", arguments := "q" }], id := none })
        (fun _ => { role := Role.tool, content := some "result",
                    tool_calls := [], id := none })
        10 2 [] (init_state []) Node.call_model).finalContent ≠
      some (some fallback_content) := by
  refine ⟨by decide, by decide, by decide⟩

/-- Helper: save and step counts of a save-step alternation closed by a
final save. -/
theorem countP_pattern (ps : List (String × Node)) (fid : String) :
    (((ps.map (fun p => [Event.save p.1, Event.step p.2])).join ++
        [Event.save fid]).countP Event.isSave = ps.length + 1) ∧
    (((ps.map (fun p => [Event.save p.1, Event.step p.2])).join ++
        [Event.save fid]).countP Event.isStep = ps.length) := by
  induction ps with
  | nil => simp [List.countP_cons, Event.isSave, Event.isStep]
  | cons p ps ih =>
    simp [List.countP_append, List.countP_cons, Event.isSave, Event.isStep] at ih ⊢
    omega

/-- Helper: every normally terminated run's trace is an alternation of a
save then one step, closed by one final save. -/
theorem run_trace_pattern (model : List Message → Message)
    (toolFn : ToolCall → Message) : ∀ (fuel budget : Nat) (store : Store)
    (state : State) (node : Node),
    (run_loop model toolFn fuel budget store state node).isOk = true →
    ∃ (ps : List (String × Node)) (fid : String),
      (run_loop model toolFn fuel budget store state node).trace =
        (ps.map (fun p => [Event.save p.1, Event.step p.2])).join ++ [Event.save fid] := by
  intro fuel
  induction fuel with
  | zero =>
    intro budget store state node h
    simp [run_loop, RunOutcome.isOk] at h
  | succ fuel ih =>
    intro budget store state node h
    simp only [run_loop] at h ⊢
    rcases hex : execute_step model toolFn node
        (if node = Node.call_model then { state with is_last_step := budget ≤ 1 } else state)
      with e | output
    · rw [hex] at h
      simp [RunOutcome.isOk] at h
    · rw [hex] at h
      simp only [] at h ⊢
      rcases hnn : next_node node
          (merge_messages
            (if node = Node.call_model then { state with is_last_step := budget ≤ 1 } else state)
            output)
        with e | onode
      · rw [hnn] at h
        simp [RunOutcome.isOk] at h
      · rw [hnn] at h
        cases onode with
        | none =>
          refine ⟨[((save_checkpoint store state).2, node)],
            (save_checkpoint (save_checkpoint store state).1
              (merge_messages
                (if node = Node.call_model then { state with is_last_step := budget ≤ 1 }
                 else state)
                output)).2, ?_⟩
          simp [RunOutcome.trace]
        | some nxt =>
          simp only [addEvents_isOk] at h
          obtain ⟨ps, fid, htr⟩ := ih _ _ _ _ h
          simp only [addEvents_trace, htr]
          exact ⟨((save_checkpoint store state).2, node) :: ps, fid, by simp⟩

/-- C7: in every normally terminated run, the event trace is exactly an
alternation in which each executed step is immediately preceded by a
checkpoint save, closed by exactly one additional save of the final State;
hence a run of k steps performs exactly k+1 saves. -/
theorem checkpoint_before_every_step (model : List Message → Message)
    (toolFn : ToolCall → Message) (fuel budget : Nat) (store : Store)
    (state : State) (node : Node)
    (h : (run_loop model toolFn fuel budget store state node).isOk = true) :
    ∃ (ps : List (String × Node)) (fid : String),
      (run_loop model toolFn fuel budget store state node).trace =
        (ps.map (fun p => [Event.save p.1, Event.step p.2])).join ++ [Event.save fid] ∧
      (run_loop model toolFn fuel budget store state node).trace.countP Event.isSave =
        ps.length + 1 ∧
      (run_loop model toolFn fuel budget store state node).trace.countP Event.isStep =
        ps.length := by
  obtain ⟨ps, fid, htr⟩ := run_trace_pattern model toolFn fuel budget store state node h
  refine ⟨ps, fid, htr, ?_, ?_⟩
  · rw [htr]
    exact (countP_pattern ps fid).1
  · rw [htr]
    exact (countP_pattern ps fid).2

set_option maxRecDepth 100000 in
/-- Witness for C7: a one-step terminating run has trace save, step, save:
one pair plus the final save. -/
theorem checkpoint_before_every_step_witness :
    ∃ (ps : List (String × Node)) (fid : String),
      (run_loop
          (fun _ => { role := Role.assistant, content := some "done",
                      tool_calls := [], id := none })
          (fun _ => { role := Role.tool, content := some "result",
                      tool_calls := [], id := none })
          3 5 [] (init_state []) Node.call_model).trace =
        (ps.map (fun p => [Event.save p.1, Event.step p.2])).join ++ [Event.save fid] ∧
      (run_loop
          (fun _ => { role := Role.assistant, content := some "done",
                      tool_calls := [], id := none })
          (fun _ => { role := Role.tool, content := some "result",
                      tool_calls := [], id := none })
          3 5 [] (init_state []) Node.call_model).trace.countP Event.isSave =
        ps.length + 1 ∧
      (run_loop
          (fun _ => { role := Role.assistant, content := some "done",
                      tool_calls := [], id := none })
          (fun _ => { role := Role.tool, content := some "result",
                      tool_calls := [], id := none })
          3 5 [] (init_state []) Node.call_model).trace.countP Event.isStep =
        ps.length :=
  checkpoint_before_every_step
    (fun _ => { role := Role.assistant, content := some "done",
                tool_calls := [], id := none })
    (fun _ => { role := Role.tool, content := some "result",
                tool_calls := [], id := none })
    3 5 [] (init_state []) Node.call_model (by decide)

end ReactAgent
